import Mathlib

/-!
Verification of the used-vehicle appraisal engine ("value" repository).

The JavaScript sources are shallowly embedded: report texts are lists of
characters, JS regular-expression literals become explicit scanners over
those lists, JS numbers become rationals (`ℚ`) where arithmetic matters and
naturals/integers where the source only counts, and each route handler's
computational core becomes a pure Lean function.  Several near-identical
copies of the logic exist in the repository; functions carry a suffix
naming the file variant they are translated from (`P1` = src/unnamed/part_001,
`P2` = src/unnamed/part_002, `P4` = src/unnamed/part_004, `P5` =
src/unnamed/part_005, `Srv` = src/server.js).
-/

namespace Value

/-! ### Character-list string primitives

These model the JS string/regex operations used by the sources:
case-insensitive matching is modelled by lower-casing the subject text
(`lowerL`), `String.prototype.includes` by `containsSub`, and a global
non-overlapping regex count of a set of literal alternatives (tried in the
regex's preference order) by `countAlt`. -/

/-- Lower-case every character, modelling `toLowerCase()` / the `i` regex flag. -/
def lowerL (t : List Char) : List Char := t.map Char.toLower

/-- Test whether `p` is an initial segment of `t`. -/
def startsWithL : List Char → List Char → Bool
  | [], _ => true
  | _ :: _, [] => false
  | p :: ps, c :: cs => p == c && startsWithL ps cs

/-- Substring test, modelling `String.prototype.includes` / `RegExp.test`
for a literal pattern. -/
def containsSub (p : List Char) : List Char → Bool
  | [] => startsWithL p []
  | c :: cs => startsWithL p (c :: cs) || containsSub p cs

/-- Length of the first of the literal alternatives `ps` matching at the head
of `t` (alternatives are tried in order, as a JS regex does). -/
def firstAltLen (ps : List (List Char)) (t : List Char) : Option Nat :=
  match ps.find? (fun p => startsWithL p t) with
  | some p => some p.length
  | none => none

/-- Structural scanner for `countAlt`: the `skip` counter tracks how many
characters of the current match remain to be consumed, so that matches are
non-overlapping as with a JS global regex. -/
def countAltAux (ps : List (List Char)) : List Char → Nat → Nat
  | [], _ => 0
  | _ :: cs, Nat.succ k => countAltAux ps cs k
  | c :: cs, 0 =>
    match firstAltLen ps (c :: cs) with
    | some n => 1 + countAltAux ps cs (n - 1)
    | none => countAltAux ps cs 0

/-- Global non-overlapping count of matches of the alternatives `ps`,
modelling `(t.match(/…/g) || []).length` for a literal alternation. -/
def countAlt (ps : List (List Char)) (t : List Char) : Nat :=
  countAltAux ps t 0

/-! ### Accident extraction (report extractor)

Translated from `extractCarfaxSummary` in src/unnamed/part_001 (lines 53-59)
and src/unnamed/part_004 (lines 55-62).  Both first test
`/no accidents? reported/i`; if it matches, `accidents` is `0`, otherwise the
maximum of the two pattern counts is taken.  The only difference is that
part_004's second pattern `/accidents?\/damage/i` lacks the `g` flag, so its
count is at most 1. -/

/-- Accident count as computed by part_001's `extractCarfaxSummary`. -/
def extractAccidentsP1 (text : List Char) : Nat :=
  let lt := lowerL text
  if containsSub ("no accident reported".data) lt
      || containsSub ("no accidents reported".data) lt then 0
  else
    let a1 := countAlt [("accident reported".data)] lt
    let a2 := countAlt [("accidents/damage".data), ("accident/damage".data)] lt
    max a1 a2

/-- Accident count as computed by part_004's `extractCarfaxSummary`; the
`accidents?\/damage` pattern has no `g` flag there, so it contributes `1` when
present and `0` otherwise. -/
def extractAccidentsP4 (text : List Char) : Nat :=
  let lt := lowerL text
  if containsSub ("no accident reported".data) lt
      || containsSub ("no accidents reported".data) lt then 0
  else
    let acc1 := countAlt [("accident reported".data)] lt
    let acc2 :=
      if containsSub ("accidents/damage".data) lt
          || containsSub ("accident/damage".data) lt then 1 else 0
    max acc1 acc2

/-- C2: any text containing the assertion "no accidents reported" yields an
accident count of 0 from both extractor variants, regardless of other
accident-pattern matches in the text. -/
theorem accidents_zero_of_no_accidents_assertion (text : List Char)
    (h : containsSub ("no accidents reported".data) (lowerL text) = true) :
    extractAccidentsP1 text = 0 ∧ extractAccidentsP4 text = 0 := by
  simp [extractAccidentsP1, extractAccidentsP4, h]

/-- C2 witness: a concrete report text that asserts "No accidents reported"
yet also contains two "accident reported" hits and an "accidents/damage"
marker still extracts 0 accidents. -/
theorem accidents_zero_witness :
    containsSub ("no accidents reported".data)
        (lowerL ("No accidents reported. accident reported accident reported accidents/damage".data)) = true ∧
      extractAccidentsP1
        ("No accidents reported. accident reported accident reported accidents/damage".data) = 0 :=
  ⟨by decide,
    (accidents_zero_of_no_accidents_assertion
      ("No accidents reported. accident reported accident reported accidents/damage".data)
      (by decide)).1⟩

/-! ### Maintenance gap inferrer

Translated from `inferMissingMaintenance` in src/unnamed/part_001 (lines
163-189); src/unnamed/part_005 carries a byte-identical copy.  `Math.round(age
* 1.2)` is embedded as `(12 * age + 5) / 10` on naturals: for a non-negative
integer age the exact value `6*age/5` never has fractional part `1/2`, so the
double-precision evaluation rounds identically.  The JS test `svcCount <
expectedSvc / 2` uses real division and is embedded as `2 * svcCount <
expectedSvc`.  `new Date().getFullYear()` is passed in as the explicit
parameter `now`. -/

/-- One inferred maintenance item, as pushed by `push(label, rationale)`. -/
structure GapItem where
  label : String
  rationale : String
  src : String
deriving DecidableEq

/-- The inferrer `inferMissingMaintenance` from part_001: low-service-history bundle, then
the oil-change no-mention rule, then the 60k-mile rules, then the 90k-mile
spark-plug rule, appended in source order. -/
def inferMissingMaintenance (svcRecords : Nat) (text : List Char)
    (mileage year now : Int) : List GapItem :=
  let t := lowerL text
  let age : Int := if year ≠ 0 ∧ 1900 < year ∧ year ≤ now then now - year else 0
  let noneOf : List (List Char) → Bool :=
    fun kws => !(kws.any fun k => containsSub k t)
  let expectedSvc : Nat := max 2 ((12 * age.toNat + 5) / 10)
  let lowHist : List GapItem :=
    if 2 * svcRecords < expectedSvc then
      [⟨"Oil change",
        "Low service history (" ++ toString svcRecords ++ "/"
          ++ toString expectedSvc ++ " expected)", "carfax_gap"⟩,
       ⟨"Engine air filter", "Low service history", "carfax_gap"⟩,
       ⟨"Cabin filter", "Low service history", "carfax_gap"⟩]
    else []
  let oilGap : List GapItem :=
    if noneOf [("oil change".data), ("engine oil".data), ("changed oil".data)] then
      [⟨"Oil change", "No oil change found in Carfax text", "carfax_gap"⟩]
    else []
  let sixtyK : List GapItem :=
    if 60000 ≤ mileage then
      (if noneOf [("transmission service".data), ("transmission fluid".data),
          ("trans fluid".data)] then
        [⟨"Transmission service", ">=60k mi and no service noted", "carfax_gap"⟩]
      else []) ++
      (if noneOf [("brake fluid".data)] then
        [⟨"Brake fluid exchange", ">=60k mi and no service noted", "carfax_gap"⟩]
      else []) ++
      (if noneOf [("coolant service".data), ("coolant flush".data),
          ("radiator flushed".data)] then
        [⟨"Coolant service", ">=60k mi and no service noted", "carfax_gap"⟩]
      else [])
    else []
  let ninetyK : List GapItem :=
    if 90000 ≤ mileage then
      (if noneOf [("spark plug".data)] then
        [⟨"Spark plugs", ">=90k mi and no plugs noted", "carfax_gap"⟩]
      else [])
    else []
  lowHist ++ oilGap ++ sixtyK ++ ninetyK

/-- C3 counterexample: with no service records, empty report text, mileage 0
and unknown year, both the low-service-history rule and the oil-change
no-mention rule fire, producing the label "Oil change" twice — identity keys
are not unique in the result list. -/
theorem maintenance_duplicate_label_counterexample :
    ¬ (((inferMissingMaintenance 0 [] 0 0 2026).map (fun it => it.label)).Nodup) := by
  decide

/-- C3 amended: the inferrer appends one item per triggered rule with no
identity-keyed de-duplication.  "Transmission service" is only ever emitted by
the single 60k-mile rule, so it appears at most once for every input; but when
the low-service-history rule and the oil-change no-mention rule both fire, the
label "Oil change" appears twice, each occurrence carrying its own rationale. -/
theorem maintenance_items_per_rule :
    (∀ (svc : Nat) (text : List Char) (m y now : Int),
        ((inferMissingMaintenance svc text m y now).map
          (fun it => it.label)).count "Transmission service" ≤ 1) ∧
      (inferMissingMaintenance 0 [] 0 0 2026).map (fun it => it.label)
        = ["Oil change", "Engine air filter", "Cabin filter", "Oil change"] ∧
      (inferMissingMaintenance 0 [] 0 0 2026).map (fun it => it.rationale)
        = ["Low service history (0/2 expected)", "Low service history",
           "Low service history", "No oil change found in Carfax text"] := by
  refine ⟨?_, by decide, by decide⟩
  intro svc text m y now
  simp only [inferMissingMaintenance, List.map_append, List.count_append]
  split_ifs <;> (first | exact Nat.zero_le _ | exact Nat.le_refl _)

/-- Appending more mileage-gated blocks only extends the item list: the result
at a lower mileage is a sublist of the result at a higher mileage. -/
theorem inferMissingMaintenance_sublist (svc : Nat) (text : List Char)
    (year now m m' : Int) (h : m ≤ m') :
    List.Sublist (inferMissingMaintenance svc text m year now)
      (inferMissingMaintenance svc text m' year now) := by
  unfold inferMissingMaintenance
  refine List.Sublist.append (List.Sublist.append (List.Sublist.refl _) ?_) ?_
  · by_cases h60 : (60000 : Int) ≤ m
    · rw [if_pos h60, if_pos (le_trans h60 h)]
    · rw [if_neg h60]
      exact List.nil_sublist _
  · by_cases h90 : (90000 : Int) ≤ m
    · rw [if_pos h90, if_pos (le_trans h90 h)]
    · rw [if_neg h90]
      exact List.nil_sublist _

/-- C10: the inferrer is monotone in mileage — for fixed summary, text and
year, every item label emitted at mileage `m` is also emitted at any mileage
`m' ≥ m`; raising the mileage can only add the 60k- and 90k-gated items, never
remove one. -/
theorem maintenance_monotone_in_mileage (svc : Nat) (text : List Char)
    (year now m m' : Int) (h : m ≤ m') (l : String)
    (hl : l ∈ (inferMissingMaintenance svc text m year now).map (fun it => it.label)) :
    l ∈ (inferMissingMaintenance svc text m' year now).map (fun it => it.label) :=
  ((inferMissingMaintenance_sublist svc text year now m m' h).map
    (fun it => it.label)).mem hl

/-- C10 witness: at 50,000 mi the inferrer on a one-character text emits "Oil
change"; by monotonicity it still emits it at 65,000 mi. -/
theorem maintenance_monotone_witness :
    (50000 : Int) ≤ 65000 ∧
      "Oil change" ∈ (inferMissingMaintenance 5 ("x".data) 65000 2020 2026).map
        (fun it => it.label) :=
  ⟨by decide,
    maintenance_monotone_in_mileage 5 ("x".data) 2020 2026 50000 65000 (by decide)
      "Oil change" (by decide)⟩

/-! ### Owner-count extraction

Translated from `extractCarfaxSummary` in src/unnamed/part_001 (lines 63-67;
part_004 lines 68-72 is identical) and from `parseCarfaxText` in
src/server.js (lines 47-51).  Both count matches of `/owner\s+\d+/gi` and
take the maximum with the number from the first `/owners?\s*:\s*(\d{1,2})/i`
label (server.js omits the `\s*` before the colon); but part_001 counts all
header matches while server.js counts distinct matched substrings
(`new Set(...).size`).  Case-insensitive matching is modelled by scanning the
lower-cased text; `\s`/`\d` and the literal letters are invariant under
lower-casing, and server.js lower-cases each matched substring anyway. -/

/-- JS `\s` character class (whitespace). -/
def isSpaceC (c : Char) : Bool := c.isWhitespace

/-- JS `\d` character class. -/
def isDigitC (c : Char) : Bool := c.isDigit

/-- Length of the (greedy) match of `owner\s+\d+` at the head of `t`. -/
def ownerHeaderLenAt (t : List Char) : Option Nat :=
  if startsWithL ("owner".data) t then
    let rest := List.drop 5 t
    let sp := rest.takeWhile isSpaceC
    if sp.length == 0 then none
    else
      let rest2 := rest.drop sp.length
      let dg := rest2.takeWhile isDigitC
      if dg.length == 0 then none
      else some (5 + sp.length + dg.length)
  else none

/-- Structural scanner collecting global non-overlapping matches of
`owner\s+\d+`; the `skip` counter tracks characters of the current match still
to be consumed. -/
def ownerHeaderMatchesAux : List Char → Nat → List (List Char)
  | [], _ => []
  | _ :: cs, Nat.succ k => ownerHeaderMatchesAux cs k
  | c :: cs, 0 =>
    match ownerHeaderLenAt (c :: cs) with
    | some n => List.take n (c :: cs) :: ownerHeaderMatchesAux cs (n - 1)
    | none => ownerHeaderMatchesAux cs 0

/-- All global non-overlapping matches of `owner\s+\d+` in `t`, as the matched
substrings, modelling `t.match(/owner\s+\d+/gi)`. -/
def ownerHeaderMatches (t : List Char) : List (List Char) :=
  ownerHeaderMatchesAux t 0

/-- Numeric value of the capture of `owners?\s*:\s*(\d{1,2})` when the pattern
matches at the head of `t` (part_001/part_004 flavour, with `\s*` before the
colon). -/
def ownersLabelValAtP1 (t : List Char) : Option Nat :=
  if startsWithL ("owner".data) t then
    let r1 := List.drop 5 t
    let r2 := if startsWithL ("s".data) r1 then r1.drop 1 else r1
    let r3 := r2.dropWhile isSpaceC
    match r3 with
    | ':' :: r4 =>
      let r5 := r4.dropWhile isSpaceC
      match r5 with
      | d1 :: r6 =>
        if isDigitC d1 then
          match r6 with
          | d2 :: _ =>
            if isDigitC d2 then some ((d1.toNat - 48) * 10 + (d2.toNat - 48))
            else some (d1.toNat - 48)
          | [] => some (d1.toNat - 48)
        else none
      | [] => none
    | _ => none
  else none

/-- First (leftmost) match value of `owners?\s*:\s*(\d{1,2})` in `t`,
modelling `t.match(...)` followed by `parseInt(m[1], 10)`. -/
def findOwnersLabelP1 : List Char → Option Nat
  | [] => none
  | c :: cs =>
    match ownersLabelValAtP1 (c :: cs) with
    | some v => some v
    | none => findOwnersLabelP1 cs

/-- server.js flavour: `owners?:\s*(\d{1,2})` — no whitespace allowed before
the colon. -/
def ownersLabelValAtSrv (t : List Char) : Option Nat :=
  if startsWithL ("owner".data) t then
    let r1 := List.drop 5 t
    let r2 := if startsWithL ("s".data) r1 then r1.drop 1 else r1
    match r2 with
    | ':' :: r4 =>
      let r5 := r4.dropWhile isSpaceC
      match r5 with
      | d1 :: r6 =>
        if isDigitC d1 then
          match r6 with
          | d2 :: _ =>
            if isDigitC d2 then some ((d1.toNat - 48) * 10 + (d2.toNat - 48))
            else some (d1.toNat - 48)
          | [] => some (d1.toNat - 48)
        else none
      | [] => none
    | _ => none
  else none

/-- Leftmost match value of server.js's `owners?:\s*(\d{1,2})`. -/
def findOwnersLabelSrv : List Char → Option Nat
  | [] => none
  | c :: cs =>
    match ownersLabelValAtSrv (c :: cs) with
    | some v => some v
    | none => findOwnersLabelSrv cs

/-- Owner count as computed by part_001's `extractCarfaxSummary`: the count of
all `owner\s+\d+` matches (with multiplicity), maxed with the `Owners: N`
label value when present. -/
def ownersP1 (text : List Char) : Nat :=
  let lt := lowerL text
  let ownerHeader := (ownerHeaderMatches lt).length
  let owners := max 0 ownerHeader
  match findOwnersLabelP1 lt with
  | some n => max owners n
  | none => owners

/-- Owner count as computed by server.js's `parseCarfaxText`: the number of
distinct matched `owner\s+\d+` substrings (`new Set(...).size`), maxed with
the `Owners: N` label value when present. -/
def ownersSrv (text : List Char) : Nat :=
  let lt := lowerL text
  let ms := ownerHeaderMatches lt
  let owners := if ms.isEmpty then 0 else ms.dedup.length
  match findOwnersLabelSrv lt with
  | some n => max owners n
  | none => owners

/-- C7 counterexample: in a text where the same "Owner 1" header occurs twice,
part_001's extractor reports 2 owners, not the claimed
max(count of distinct headers, label) = 1. -/
theorem owners_distinct_counterexample :
    ¬ (ownersP1 ("Owner 1 and later again Owner 1".data)
        = max ((ownerHeaderMatches (lowerL ("Owner 1 and later again Owner 1".data))).dedup.length)
            ((findOwnersLabelP1 (lowerL ("Owner 1 and later again Owner 1".data))).getD 0)) := by
  decide

/-- C7 amended: server.js's `parseCarfaxText` owner count is the maximum of
the number of distinct "Owner N" header matches and the explicit "Owners: N"
label value; part_001's `extractCarfaxSummary` instead maxes the label with
the count of all header matches, with multiplicity.  On texts whose headers
are pairwise distinct the two agree: three distinct header-style owners and no
numeric label yield 3, and adding the label "Owners: 5" yields 5, in both
variants. -/
theorem owners_extraction_amended :
    (∀ text, ownersSrv text
        = max ((ownerHeaderMatches (lowerL text)).dedup.length)
            ((findOwnersLabelSrv (lowerL text)).getD 0)) ∧
      (∀ text, ownersP1 text
        = max ((ownerHeaderMatches (lowerL text)).length)
            ((findOwnersLabelP1 (lowerL text)).getD 0)) ∧
      ownersP1 ("Owner 1\nOwner 2\nOwner 3".data) = 3 ∧
      ownersSrv ("Owner 1\nOwner 2\nOwner 3".data) = 3 ∧
      ownersP1 ("Owner 1\nOwner 2\nOwner 3\nOwners: 5".data) = 5 ∧
      ownersSrv ("Owner 1\nOwner 2\nOwner 3\nOwners: 5".data) = 5 := by
  refine ⟨?_, ?_, by decide, by decide, by decide, by decide⟩
  · intro text
    simp only [ownersSrv]
    cases h : findOwnersLabelSrv (lowerL text) with
    | none =>
      by_cases hm : (ownerHeaderMatches (lowerL text)).isEmpty
      · simp [hm, List.isEmpty_iff.mp hm]
      · simp [hm]
    | some n =>
      by_cases hm : (ownerHeaderMatches (lowerL text)).isEmpty
      · simp [hm, List.isEmpty_iff.mp hm]
      · simp [hm]
  · intro text
    simp only [ownersP1]
    cases h : findOwnersLabelP1 (lowerL text) with
    | none => simp
    | some n => simp

/-! ### Title-branding extraction

Two variants are cited.  part_001 (lines 78-79; part_004 lines 96-98 and
server.js lines 59-61 behave the same way) simply keeps every branding
keyword that occurs anywhere in the lower-cased text.  part_005's second
`extractCarfaxSummary` (lines 415-431) scans line-by-line: a line must
contain "brand" or "title", lines matching the disclaimer pattern
`/may include|include:/` are skipped, keywords are matched with `\b` word
boundaries and `\s+` for interior whitespace, and results are accumulated in
a `Set` (insertion-ordered, de-duplicated).  That variant additionally scans
the whole text for `/branded\s+title\s*[:\-]?\s*(…)/gi` matches; the
follow-up `replace` uses a regex spelled with doubled backslashes that can
never match, so the entire matched substring is added to the set verbatim. -/

/-- The fixed branding keyword vocabulary (part_001 line 78; identical in
part_004 and part_005). -/
def BRANDING_KEYWORDS : List String :=
  ["salvage", "rebuilt", "junk", "flood", "lemon", "hail", "fire",
   "odometer rollback", "not actual mileage", "tmu", "structural damage"]

/-- Branding extraction in part_001: keep each keyword the lower-cased text
contains anywhere (`brandingKeywords.filter(k => lower.includes(k))`). -/
def brandingsP1 (text : List Char) : List String :=
  let lower := lowerL text
  BRANDING_KEYWORDS.filter (fun k => containsSub k.data lower)

/-- Split a character list into the maximal runs not satisfying `p`,
modelling `split(/X+/)` (up to leading empty pieces, which the callers
discard). -/
def splitRunsAux (p : Char → Bool) : List Char → List Char → List (List Char)
  | [], acc => if acc.isEmpty then [] else [acc.reverse]
  | c :: cs, acc =>
    if p c then
      if acc.isEmpty then splitRunsAux p cs []
      else acc.reverse :: splitRunsAux p cs []
    else splitRunsAux p cs (c :: acc)

/-- Runs of non-`p` characters of `t`. -/
def splitRuns (p : Char → Bool) (t : List Char) : List (List Char) :=
  splitRunsAux p t []

/-- Model of `String.prototype.trim`. -/
def trimL (l : List Char) : List Char :=
  ((l.dropWhile isSpaceC).reverse.dropWhile isSpaceC).reverse

/-- JS `\w` word character (ASCII letters, digits, underscore). -/
def isWordChar (c : Char) : Bool := c.isAlphanum || c == '_'

/-- Match the words of a keyword in sequence, separated by `\s+` (the
compiled form of `kw.replace(/\s+/g,'\\s+')`), returning the unconsumed
suffix. -/
def matchWordSeq : List (List Char) → List Char → Option (List Char)
  | [], t => some t
  | w :: ws, t =>
    if startsWithL w t then
      let rest := List.drop w.length t
      match ws with
      | [] => some rest
      | _ :: _ =>
        let rest2 := rest.dropWhile isSpaceC
        if rest2.length < rest.length then matchWordSeq ws rest2 else none
    else none

/-- Word-boundary keyword match at the current position: the previous
character (if any) must not be a word character, the keyword's words must
match separated by whitespace, and the following character (if any) must not
be a word character. -/
def kwMatchAt (ws : List (List Char)) (prev : Option Char) (t : List Char) : Bool :=
  (match prev with
   | none => true
   | some c => !(isWordChar c)) &&
  (match matchWordSeq ws t with
   | none => false
   | some rest =>
     match rest with
     | [] => true
     | c :: _ => !(isWordChar c))

/-- Search the whole line for a word-boundary keyword match, tracking the
previous character. -/
def kwSearchAux (ws : List (List Char)) : Option Char → List Char → Bool
  | prev, [] => kwMatchAt ws prev []
  | prev, c :: cs => kwMatchAt ws prev (c :: cs) || kwSearchAux ws (some c) cs

/-- Model of `new RegExp('\\b' + kw.replace(/\s+/g,'\\s+') + '\\b', 'i').test(line)`
for a lower-cased keyword and line. -/
def kwTest (kw : String) (line : List Char) : Bool :=
  kwSearchAux (splitRuns isSpaceC kw.data) none line

/-- The alternation inside part_005's `/branded\s+title\s*[:\-]?\s*(…)/gi`
(note: no "tmu", and "not actual mileage" precedes "odometer rollback"). -/
def BRANDED_ALTS : List String :=
  ["salvage", "rebuilt", "junk", "flood", "lemon", "hail", "fire",
   "not actual mileage", "odometer rollback", "structural damage"]

/-- Length of the greedy match of `branded\s+title\s*[:\-]?\s*(…)` at the
head of `t`, if any. -/
def brandedLenAt (t : List Char) : Option Nat :=
  if startsWithL ("branded".data) t then
    let r1 := List.drop 7 t
    let sp1 := r1.takeWhile isSpaceC
    if sp1.length == 0 then none
    else
      let r2 := r1.drop sp1.length
      if startsWithL ("title".data) r2 then
        let r3 := r2.drop 5
        let sp2 := r3.takeWhile isSpaceC
        let r4 := r3.drop sp2.length
        let punctLen :=
          match r4 with
          | c :: _ => if c == ':' || c == '-' then 1 else 0
          | [] => 0
        let r5 := r4.drop punctLen
        let sp3 := r5.takeWhile isSpaceC
        let r6 := r5.drop sp3.length
        match firstAltLen (BRANDED_ALTS.map String.data) r6 with
        | some n => some (7 + sp1.length + 5 + sp2.length + punctLen + sp3.length + n)
        | none => none
      else none
  else none

/-- Structural scanner collecting the global `branded\s+title…` matches as
substrings. -/
def brandedMatchesAux : List Char → Nat → List (List Char)
  | [], _ => []
  | _ :: cs, Nat.succ k => brandedMatchesAux cs k
  | c :: cs, 0 =>
    match brandedLenAt (c :: cs) with
    | some n => List.take n (c :: cs) :: brandedMatchesAux cs (n - 1)
    | none => brandedMatchesAux cs 0

/-- All `lower.match(/branded\s+title\s*[:\-]?\s*(…)/gi)` matches. -/
def brandedMatches (t : List Char) : List (List Char) :=
  brandedMatchesAux t 0

/-- Model of `Set.prototype.add`: append if not already present (JS sets preserve
insertion order). -/
def insertIfAbsent (l : List (List Char)) (x : List Char) : List (List Char) :=
  if x ∈ l then l else l ++ [x]

/-- Branding extraction in part_005's second `extractCarfaxSummary`:
line-by-line scan with eligibility and disclaimer filters and word-boundary
keyword matching, then the `branded title` whole-text scan (whose matched
substrings are added verbatim because the follow-up `replace` never fires),
all accumulated into an insertion-ordered set. -/
def brandingsP5 (text : List Char) : List (List Char) :=
  let t := text.filter (fun c => !(c == '\r'))
  let lower := lowerL t
  let lines := ((splitRuns (fun c => c == '\n') t).map
    (fun s => lowerL (trimL s))).filter (fun s => !s.isEmpty)
  let fromLines := lines.foldl (fun acc line =>
    if !(containsSub ("brand".data) line || containsSub ("title".data) line) then acc
    else if containsSub ("may include".data) line
        || containsSub ("include:".data) line then acc
    else BRANDING_KEYWORDS.foldl (fun acc2 kw =>
      if kwTest kw line then insertIfAbsent acc2 kw.data else acc2) acc) []
  (brandedMatches lower).foldl insertIfAbsent fromLines

/-- C6 counterexample: part_001's branding extraction has no line or
disclaimer filtering, so the boilerplate text "Title may include: salvage,
flood" yields the non-empty set {salvage, flood}, not the claimed empty set. -/
theorem brandings_disclaimer_counterexample :
    brandingsP1 ("Title may include: salvage, flood".data) = ["salvage", "flood"] ∧
      ¬ (brandingsP1 ("Title may include: salvage, flood".data) = []) := by
  constructor <;> decide

/-- Inserting via `insertIfAbsent` preserves `Nodup`. -/
theorem nodup_insertIfAbsent (l : List (List Char)) (x : List Char)
    (h : l.Nodup) : (insertIfAbsent l x).Nodup := by
  unfold insertIfAbsent
  split
  · exact h
  · next hx => simpa [List.nodup_append] using ⟨h, hx⟩

/-- A fold whose step preserves `Nodup` preserves `Nodup`. -/
theorem nodup_foldl {α : Type} (f : List (List Char) → α → List (List Char))
    (hf : ∀ acc x, acc.Nodup → (f acc x).Nodup) :
    ∀ (xs : List α) (init : List (List Char)), init.Nodup → (xs.foldl f init).Nodup := by
  intro xs
  induction xs with
  | nil => intro init h; exact h
  | cons x xs ih => intro init h; exact ih (f init x) (hf init x h)

/-- C6 amended: the claim's line-scanning description holds of part_005's
second `extractCarfaxSummary`: the disclaimer-only text yields no brandings,
"Title: Salvage Brand" yields exactly {salvage}, and the result is always
de-duplicated.  part_001's extractor, by contrast, is a plain whole-text
substring filter (see the counterexample), though it also maps
"Title: Salvage Brand" to {salvage}. -/
theorem brandings_line_scan_amended :
    (∀ text, (brandingsP5 text).Nodup) ∧
      brandingsP5 ("Title may include: salvage, flood".data) = [] ∧
      brandingsP5 ("Title: Salvage Brand".data) = [("salvage".data)] ∧
      brandingsP1 ("Title: Salvage Brand".data) = ["salvage"] := by
  refine ⟨?_, by decide, by decide, by decide⟩
  intro text
  simp only [brandingsP5]
  apply nodup_foldl insertIfAbsent (fun acc x h => nodup_insertIfAbsent acc x h)
  apply nodup_foldl
  · intro acc line h
    split
    · exact h
    · split
      · exact h
      · apply nodup_foldl
        · intro acc2 kw h2
          split
          · exact nodup_insertIfAbsent acc2 kw.data h2
          · exact h2
        · exact h
  · exact List.nodup_nil

/-! ### Settings and the offer calculator

Translated from src/unnamed/part_002 (settings route lines 28-43, offer
route lines 209-220); src/unnamed/part_005 lines 588-599 carries an identical
copy of the offer route.  JS numbers are modelled as rationals.  `Math.round`
rounds half toward positive infinity, i.e. `⌊x + 1/2⌋`.  The `(S.x || 0)`
guards are the identity on numbers (`0 || 0` is `0`), so they are dropped.
The string-to-number coercion applied to settings values posted as strings is
value normalisation orthogonal to the merge logic; request values are
modelled post-coercion as rationals, and `k in req.body` as a successful
association-list lookup. -/

/-- The settings object of part_002's data/settings.json; exactly the keys
its `/api/settings` route merges. -/
structure SettingsP2 where
  desiredProfit : ℚ
  riskReservePerRecall : ℚ
  holdingPercent : ℚ
  docFee : ℚ
deriving DecidableEq

/-- JS `Math.round`: half-up, toward positive infinity. -/
def jsRound (x : ℚ) : ℚ := (⌊x + 1 / 2⌋ : ℤ)

/-- The `numbers` object returned by `/api/offer/calc`. -/
structure OfferNumbers where
  retailBase : ℚ
  wholesaleBase : ℚ
  maintDeduction : ℚ
  adjWholesale : ℚ
  reconTotal : ℚ
  riskReserve : ℚ
  desiredProfit : ℚ
  holding : ℚ
  fees : ℚ
  targetMaxBuy : ℚ
deriving DecidableEq

/-- The route `/api/offer/calc` from part_002 (identical in part_005): note that
`targetMaxBuy` is `Math.min(ceiling1, ceiling2)` with no flooring and no
clamping at 0, and `adjWholesale` is an unclamped difference. -/
def offerCalcP2 (retailBase wholesaleBase maintDeduction reconTotal riskReserve : ℚ)
    (S : SettingsP2) : OfferNumbers :=
  let adjWholesale := wholesaleBase - maintDeduction
  let holding := jsRound (S.holdingPercent * retailBase)
  let fees := S.docFee
  let ceiling1 := adjWholesale - reconTotal - riskReserve - S.desiredProfit
  let ceiling2 := retailBase - S.desiredProfit - reconTotal - holding - fees
  let targetMaxBuy := min ceiling1 ceiling2
  ⟨retailBase, wholesaleBase, maintDeduction, adjWholesale, reconTotal,
    riskReserve, S.desiredProfit, holding, fees, targetMaxBuy⟩

/-- C1 counterexample: with all monetary inputs 0 and a desired profit of
2000, the calculator returns `targetMaxBuy = -2000 < 0`; the route never
applies `max(0, floor(…))`. -/
theorem offer_calc_negative_counterexample :
    (offerCalcP2 0 0 0 0 0 ⟨2000, 0, 0, 0⟩).targetMaxBuy = -2000 ∧
      (offerCalcP2 0 0 0 0 0 ⟨2000, 0, 0, 0⟩).targetMaxBuy < 0 := by
  constructor
  · show min ((0 : ℚ) - 0 - 0 - 0 - 2000)
        (0 - 2000 - 0 - jsRound (0 * 0) - 0) = -2000
    norm_num [jsRound]
  · show min ((0 : ℚ) - 0 - 0 - 0 - 2000)
        (0 - 2000 - 0 - jsRound (0 * 0) - 0) < 0
    norm_num [jsRound]

/-- C1 amended: `targetMaxBuy` is exactly `min(ceiling1, ceiling2)` with the
floor and the clamp at 0 absent; when both ceilings are negative — e.g. when
deductions and desired profit exceed the baseline values — the returned
`targetMaxBuy` is negative. -/
theorem offer_calc_target_max_buy (retailBase wholesaleBase maintDeduction
    reconTotal riskReserve : ℚ) (S : SettingsP2) :
    (offerCalcP2 retailBase wholesaleBase maintDeduction reconTotal riskReserve S).targetMaxBuy
        = min (wholesaleBase - maintDeduction - reconTotal - riskReserve - S.desiredProfit)
            (retailBase - S.desiredProfit - reconTotal
              - jsRound (S.holdingPercent * retailBase) - S.docFee) ∧
      (wholesaleBase - maintDeduction - reconTotal - riskReserve - S.desiredProfit < 0 →
        retailBase - S.desiredProfit - reconTotal
            - jsRound (S.holdingPercent * retailBase) - S.docFee < 0 →
        (offerCalcP2 retailBase wholesaleBase maintDeduction reconTotal riskReserve S).targetMaxBuy < 0) :=
  ⟨rfl, fun h1 h2 => lt_of_le_of_lt (min_le_left _ _) h1⟩

/-- C1 amended witness: at the counterexample input both ceilings are
negative and the theorem yields a negative target. -/
theorem offer_calc_target_max_buy_witness :
    (offerCalcP2 0 0 0 0 0 ⟨2000, 0, 0, 0⟩).targetMaxBuy < 0 :=
  (offer_calc_target_max_buy 0 0 0 0 0 ⟨2000, 0, 0, 0⟩).2
    (by norm_num [jsRound]) (by norm_num [jsRound])

/-- Lookup table for maintenance item costs (part_001 lines 91-96). -/
def COST_MAP : List (String × ℚ) :=
  [("Oil change", 60), ("Cabin filter", 40), ("Engine air filter", 45),
   ("Tire rotation", 30), ("Wheel alignment", 110), ("Battery", 180),
   ("Brake fluid exchange", 120), ("Coolant service", 180),
   ("Transmission service", 250), ("Spark plugs", 250), ("Wiper blades", 30)]

/-- Lookup `COST_MAP[label]`, `none` when absent. -/
def costMapLookup (label : String) : Option ℚ :=
  (COST_MAP.find? (fun p => p.1 = label)).map (fun p => p.2)

/-- Result of `/api/value/adjusted` (part_001 lines 192-201). -/
structure AdjustedResult where
  baseWholesale : ℚ
  deduction : ℚ
  adjustedWholesale : ℚ
  items : List (GapItem × ℚ)
deriving DecidableEq

/-- The route `/api/value/adjusted` from part_001: infer gap items, price each via
`COST_MAP[label] ?? 100`, sum the deduction, and clamp
`Math.max(0, Math.round(baseWholesale - deduction))`. -/
def apiValueAdjusted (baseWholesale : ℚ) (svcRecords : Nat) (carfaxText : List Char)
    (mileage year now : Int) : AdjustedResult :=
  let items := inferMissingMaintenance svcRecords carfaxText mileage year now
  let priced := items.map (fun it => (it, (costMapLookup it.label).getD 100))
  let deduction := (priced.map (fun p => p.2)).sum
  let adjustedWholesale := max 0 (jsRound (baseWholesale - deduction))
  ⟨baseWholesale, deduction, adjustedWholesale, priced⟩

/-- C8 counterexample: in the offer calculation itself (`/api/offer/calc`,
part_005 lines 588-599 and part_002 lines 209-220), `adjWholesale` is the
unclamped, unrounded difference: with `wholesaleBase = 0` and
`maintDeduction = 100` it is `-100`, not `max(0, round(0 - 100)) = 0`. -/
theorem adj_wholesale_unclamped_counterexample :
    (offerCalcP2 0 0 100 0 0 ⟨0, 0, 0, 0⟩).adjWholesale = -100 ∧
      ¬ ((offerCalcP2 0 0 100 0 0 ⟨0, 0, 0, 0⟩).adjWholesale
          = max 0 (jsRound ((offerCalcP2 0 0 100 0 0 ⟨0, 0, 0, 0⟩).wholesaleBase
              - (offerCalcP2 0 0 100 0 0 ⟨0, 0, 0, 0⟩).maintDeduction))) := by
  constructor
  · show (0 : ℚ) - 100 = -100
    norm_num
  · show ¬ ((0 : ℚ) - 100 = max 0 (jsRound ((0 : ℚ) - 100)))
    norm_num [jsRound]

/-- C8 amended: the clamped formula `max(0, round(base − deduction))` is the
one used by the `/api/value/adjusted` endpoint, whose result is therefore
never negative; the offer calculator's `adjWholesale` is the bare difference
`wholesaleBase − maintDeduction`, with no rounding and no clamp. -/
theorem adjusted_wholesale_amended :
    (∀ (base : ℚ) (svc : Nat) (text : List Char) (m y now : Int),
        (apiValueAdjusted base svc text m y now).adjustedWholesale
            = max 0 (jsRound (base - (apiValueAdjusted base svc text m y now).deduction)) ∧
          0 ≤ (apiValueAdjusted base svc text m y now).adjustedWholesale) ∧
      ∀ (r w md rt rr : ℚ) (S : SettingsP2),
        (offerCalcP2 r w md rt rr S).adjWholesale = w - md :=
  ⟨fun base svc text m y now => ⟨rfl, le_max_left 0 _⟩,
    fun r w md rt rr S => rfl⟩

/-! ### Settings merge (`POST /api/settings`, part_002 lines 28-43) -/

/-- The route's `allowed` key list. -/
def ALLOWED_KEYS : List String :=
  ["desiredProfit", "riskReservePerRecall", "holdingPercent", "docFee"]

/-- Model of `k in req.body` plus value access, on a request body modelled as an
association list. -/
def lookupKey (body : List (String × ℚ)) (k : String) : Option ℚ :=
  (body.find? (fun p => p.1 = k)).map (fun p => p.2)

/-- Model of `next[k] = v` for one recognized key. -/
def setKey (s : SettingsP2) (k : String) (v : ℚ) : SettingsP2 :=
  if k = "desiredProfit" then { s with desiredProfit := v }
  else if k = "riskReservePerRecall" then { s with riskReservePerRecall := v }
  else if k = "holdingPercent" then { s with holdingPercent := v }
  else if k = "docFee" then { s with docFee := v }
  else s

/-- The route's merge: start from a copy of the previous full settings object
and overwrite exactly the allowed keys present in the request. -/
def mergeSettings (S : SettingsP2) (body : List (String × ℚ)) : SettingsP2 :=
  ALLOWED_KEYS.foldl (fun next k =>
    match lookupKey body k with
    | some v => setKey next k v
    | none => next) S

/-- The merge in closed form: every field is the posted value when the key is
present and the previous value otherwise. -/
theorem mergeSettings_eq (S : SettingsP2) (body : List (String × ℚ)) :
    mergeSettings S body
      = { desiredProfit := (lookupKey body "desiredProfit").getD S.desiredProfit,
          riskReservePerRecall :=
            (lookupKey body "riskReservePerRecall").getD S.riskReservePerRecall,
          holdingPercent := (lookupKey body "holdingPercent").getD S.holdingPercent,
          docFee := (lookupKey body "docFee").getD S.docFee } := by
  simp only [mergeSettings, ALLOWED_KEYS, List.foldl]
  rcases h1 : lookupKey body "desiredProfit" with _ | v1 <;>
    rcases h2 : lookupKey body "riskReservePerRecall" with _ | v2 <;>
      rcases h3 : lookupKey body "holdingPercent" with _ | v3 <;>
        rcases h4 : lookupKey body "docFee" with _ | v4 <;>
          simp +decide [setKey, h1, h2, h3, h4]

/-- C9: the settings write merges exactly the recognized keys onto the
previous full settings object: each recognized key present in the request
replaces that field, every other field keeps its previous value, the result
is a fully-populated `SettingsP2`, and two requests that agree on the
recognized keys produce identical results — unknown keys are ignored. -/
theorem settings_merge_frame (S : SettingsP2) (body : List (String × ℚ)) :
    mergeSettings S body
        = { desiredProfit := (lookupKey body "desiredProfit").getD S.desiredProfit,
            riskReservePerRecall :=
              (lookupKey body "riskReservePerRecall").getD S.riskReservePerRecall,
            holdingPercent := (lookupKey body "holdingPercent").getD S.holdingPercent,
            docFee := (lookupKey body "docFee").getD S.docFee } ∧
      ∀ body' : List (String × ℚ),
        (∀ k, k ∈ ALLOWED_KEYS → lookupKey body k = lookupKey body' k) →
        mergeSettings S body = mergeSettings S body' := by
  refine ⟨mergeSettings_eq S body, fun body' hagree => ?_⟩
  rw [mergeSettings_eq S body, mergeSettings_eq S body',
    hagree "desiredProfit" (by decide), hagree "riskReservePerRecall" (by decide),
    hagree "holdingPercent" (by decide), hagree "docFee" (by decide)]

/-- C9 witness: a request carrying an unrecognized key "bogusKey" merges
identically to the same request without it, and the merged object keeps the
old values of the unnamed keys. -/
theorem settings_merge_frame_witness :
    mergeSettings ⟨1, 2, 3, 4⟩ [("desiredProfit", 2500), ("bogusKey", 9)]
        = mergeSettings ⟨1, 2, 3, 4⟩ [("desiredProfit", 2500)] ∧
      mergeSettings ⟨1, 2, 3, 4⟩ [("desiredProfit", 2500), ("bogusKey", 9)]
        = ⟨2500, 2, 3, 4⟩ :=
  ⟨(settings_merge_frame ⟨1, 2, 3, 4⟩ [("desiredProfit", 2500), ("bogusKey", 9)]).2
      [("desiredProfit", 2500)] (by decide),
    by
      rw [(settings_merge_frame ⟨1, 2, 3, 4⟩
        [("desiredProfit", 2500), ("bogusKey", 9)]).1]
      decide⟩

/-! ### Risk evidence aggregator

Translated from `/api/evidence/score` in src/unnamed/part_001 (buckets lines
696-707, classification lines 708-726, scoring/ranking lines 728-739).  Each
record is classified by a case-insensitive substring test of its bucket key
against the space-joined concatenation of its free-text fields; the per-label
`Map` increments are modelled as a `filter`-`length` per bucket.  The ranked
list drops zero scores, sorts by the stable JS `sort` with comparator
`(a,b) => b.score - a.score` — i.e. by score descending with ties kept in
original bucket-vocabulary order, realised here by an insertion sort that
places a new element after existing equal-score elements — and truncates to
five.  The optional SERP web-corroboration step is gated on an external
source and sits outside the cited scoring block, so it is not modelled. -/

/-- One NHTSA complaint record's free-text fields. -/
structure ComplaintRec where
  component : List Char
  summary : List Char
  narrative : List Char
deriving DecidableEq

/-- One NHTSA recall record's free-text fields. -/
structure RecallRec where
  component : List Char
  summary : List Char
deriving DecidableEq

/-- One DOT TSB record's free-text fields. -/
structure TsbRec where
  component : List Char
  systemType : List Char
  summary : List Char
deriving DecidableEq

/-- Concatenated complaint free text, lower-cased (component, summary, narrative joined by spaces). -/
def complaintText (c : ComplaintRec) : List Char :=
  lowerL (c.component ++ [' '] ++ c.summary ++ [' '] ++ c.narrative)

/-- Concatenated recall free text, lower-cased (Component and Summary joined by a space). -/
def recallText (r : RecallRec) : List Char :=
  lowerL (r.component ++ [' '] ++ r.summary)

/-- Concatenated TSB free text, lower-cased (component, system type, summary joined by spaces). -/
def tsbText (t : TsbRec) : List Char :=
  lowerL (t.component ++ [' '] ++ t.systemType ++ [' '] ++ t.summary)

/-- The fixed topic vocabulary: (matching key, bucket label) in source order. -/
def BUCKETS : List (String × String) :=
  [("engine", "Engine / Oil consumption"), ("trans", "Transmission"),
   ("brake", "Brakes"), ("air bag", "Airbags / SRS"), ("electr", "Electrical"),
   ("steering", "Steering"), ("susp", "Suspension"), ("fuel", "Fuel system"),
   ("ac", "HVAC / A/C"), ("paint", "Paint / Exterior")]

/-- One entry of the `scored` array; `idx` records the bucket's position in
the topic vocabulary (its index in the `buckets` source array). -/
structure ScoredBucket where
  idx : Nat
  label : String
  complaints : Nat
  tsb : Bool
  hasRecall : Bool
  score : Nat
  rationale : String
deriving DecidableEq

/-- Classification and scoring of one bucket (the body of `buckets.map` at
part_001 lines 728-738): complaint count, TSB/recall presence, the score
`(hasT?3:0)+(hasR?2:0)+floor(c/10)`, and the rationale built from the
present terms joined with " · " (the `[x,y,z].filter(Boolean).join(' · ')`
idiom). -/
def mkScoredBucket (complaints : List ComplaintRec) (recalls : List RecallRec)
    (tsbs : List TsbRec) (i : Nat) (kl : String × String) : ScoredBucket :=
  let c := (complaints.filter (fun r => containsSub kl.1.data (complaintText r))).length
  let hasT := tsbs.any (fun r => containsSub kl.1.data (tsbText r))
  let hasR := recalls.any (fun r => containsSub kl.1.data (recallText r))
  let score := (if hasT then 3 else 0) + (if hasR then 2 else 0) + c / 10
  let rationale := String.intercalate " · "
    ((if hasT then ["TSB present (+3)"] else []) ++
     (if hasR then ["Recall mention (+2)"] else []) ++
     (if c ≠ 0 then [toString c ++ " complaints (~+" ++ toString (c / 10) ++ ")"] else []))
  ⟨i, kl.2, c, hasT, hasR, score, rationale⟩

/-- Stable descending insertion: a new element goes after existing elements
of equal score, matching the stable JS `sort((a,b) => b.score - a.score)`. -/
def insertDesc (x : ScoredBucket) : List ScoredBucket → List ScoredBucket
  | [] => [x]
  | y :: ys => if y.score < x.score then x :: y :: ys else y :: insertDesc x ys

/-- Stable sort by score descending. -/
def sortDesc (l : List ScoredBucket) : List ScoredBucket :=
  l.foldl (fun acc x => insertDesc x acc) []

/-- The `scored` pipeline: classify and score every vocabulary bucket, drop
zero scores, sort descending (stably), truncate to the top five. -/
def scoredRisks (complaints : List ComplaintRec) (recalls : List RecallRec)
    (tsbs : List TsbRec) : List ScoredBucket :=
  ((sortDesc ((BUCKETS.enum.map
    (fun p => mkScoredBucket complaints recalls tsbs p.1 p.2)).filter
      (fun x => 0 < x.score)))).take 5

/-- The ranking order: score strictly descending, or equal score with the
earlier topic-vocabulary index first. -/
def BucketOrder (a b : ScoredBucket) : Prop :=
  b.score < a.score ∨ (a.score = b.score ∧ a.idx < b.idx)

/-- Membership through `insertDesc`. -/
theorem mem_insertDesc (x z : ScoredBucket) :
    ∀ l : List ScoredBucket, z ∈ insertDesc x l ↔ z = x ∨ z ∈ l := by
  intro l
  induction l with
  | nil => simp [insertDesc]
  | cons y ys ih =>
    simp only [insertDesc]
    split
    · simp [or_comm, or_assoc, or_left_comm]
    · simp [ih]
      tauto

/-- Membership through the insertion fold. -/
theorem mem_sortAux (z : ScoredBucket) :
    ∀ (l acc : List ScoredBucket),
      (z ∈ l.foldl (fun acc x => insertDesc x acc) acc ↔ z ∈ acc ∨ z ∈ l) := by
  intro l
  induction l with
  | nil => simp
  | cons x xs ih =>
    intro acc
    simp only [List.foldl_cons, ih, mem_insertDesc]
    simp
    tauto

/-- Sorting with `sortDesc` is a reordering: it has exactly the members of its input. -/
theorem mem_sortDesc (l : List ScoredBucket) (z : ScoredBucket) :
    z ∈ sortDesc l ↔ z ∈ l := by
  simp [sortDesc, mem_sortAux]

/-- Inserting an element whose vocabulary index exceeds those already present
preserves the ranking order. -/
theorem insertDesc_pairwise (x : ScoredBucket) :
    ∀ l : List ScoredBucket, List.Pairwise BucketOrder l →
      (∀ y ∈ l, y.idx < x.idx) → List.Pairwise BucketOrder (insertDesc x l) := by
  intro l
  induction l with
  | nil => intro _ _; simp [insertDesc, List.Pairwise]
  | cons y ys ih =>
    intro hp hidx
    rcases List.pairwise_cons.mp hp with ⟨hy, hys⟩
    simp only [insertDesc]
    split
    · next hlt =>
      refine List.pairwise_cons.mpr ⟨?_, hp⟩
      intro z hz
      rcases List.mem_cons.mp hz with rfl | hz
      · exact Or.inl hlt
      · rcases hy z hz with h | ⟨he, _⟩
        · exact Or.inl (lt_trans h hlt)
        · exact Or.inl (he ▸ hlt)
    · next hge =>
      refine List.pairwise_cons.mpr ⟨?_, ?_⟩
      · intro z hz
        rcases (mem_insertDesc x z ys).mp hz with rfl | hz
        · rcases lt_or_eq_of_le (Nat.le_of_not_lt hge) with h | h
          · exact Or.inl h
          · exact Or.inr ⟨h.symm, hidx y (by simp)⟩
        · exact hy z hz
      · exact ih hys (fun y hy => hidx y (by simp [hy]))

/-- The insertion fold sorts: if the pending elements have strictly
increasing vocabulary indices, all exceeding those already placed, the result
is ordered by `BucketOrder`. -/
theorem sortAux_pairwise :
    ∀ (l acc : List ScoredBucket), List.Pairwise BucketOrder acc →
      (∀ y ∈ acc, ∀ x ∈ l, y.idx < x.idx) →
      List.Pairwise (fun a b => a.idx < b.idx) l →
      List.Pairwise BucketOrder (l.foldl (fun acc x => insertDesc x acc) acc) := by
  intro l
  induction l with
  | nil => intro acc h _ _; exact h
  | cons x xs ih =>
    intro acc hacc hsep hl
    rcases List.pairwise_cons.mp hl with ⟨hx, hxs⟩
    simp only [List.foldl_cons]
    refine ih (insertDesc x acc) ?_ ?_ hxs
    · exact insertDesc_pairwise x acc hacc (fun y hy => hsep y hy x (by simp))
    · intro y hy z hz
      rcases (mem_insertDesc x y acc).mp hy with rfl | hy
      · exact hx z hz
      · exact hsep y hy z (by simp [hz])

/-- Applying `sortDesc` to a list with strictly increasing vocabulary indices is
ordered by `BucketOrder`. -/
theorem sortDesc_pairwise (l : List ScoredBucket)
    (h : List.Pairwise (fun a b => a.idx < b.idx) l) :
    List.Pairwise BucketOrder (sortDesc l) :=
  sortAux_pairwise l [] (by simp) (by simp) h

/-- C4: every bucket the aggregator outputs carries the score
`(hasTSB ? 3 : 0) + (hasRecall ? 2 : 0) + floor(complaintCount / 10)` and a
rationale that joins, with " · " and in the order TSB, recall, complaints,
exactly the terms whose input is non-zero, each with its point value. -/
theorem risk_bucket_score_rationale (complaints : List ComplaintRec)
    (recalls : List RecallRec) (tsbs : List TsbRec) (b : ScoredBucket)
    (hb : b ∈ scoredRisks complaints recalls tsbs) :
    b.score = (if b.tsb then 3 else 0) + (if b.hasRecall then 2 else 0)
        + b.complaints / 10 ∧
      b.rationale = String.intercalate " · "
        ((if b.tsb then ["TSB present (+3)"] else []) ++
         (if b.hasRecall then ["Recall mention (+2)"] else []) ++
         (if b.complaints ≠ 0 then
           [toString b.complaints ++ " complaints (~+"
             ++ toString (b.complaints / 10) ++ ")"] else [])) := by
  have hb1 := List.mem_of_mem_take hb
  rw [mem_sortDesc] at hb1
  obtain ⟨hb2, -⟩ := List.mem_filter.mp hb1
  obtain ⟨p, -, rfl⟩ := List.mem_map.mp hb2
  exact ⟨rfl, rfl⟩

/-- C4 witness: with 23 engine complaints, one engine recall and one engine
TSB, the Engine bucket is ranked and scores 3 + 2 + ⌊23/10⌋ = 7, with all
three rationale terms present. -/
theorem risk_bucket_score_witness :
    (mkScoredBucket (List.replicate 23 ⟨("engine".data), [], []⟩)
          [⟨("engine".data), []⟩] [⟨("engine".data), [], []⟩]
          0 ("engine", "Engine / Oil consumption")).score = 7 ∧
      (mkScoredBucket (List.replicate 23 ⟨("engine".data), [], []⟩)
          [⟨("engine".data), []⟩] [⟨("engine".data), [], []⟩]
          0 ("engine", "Engine / Oil consumption")).rationale
        = "TSB present (+3) · Recall mention (+2) · 23 complaints (~+2)" := by
  have h := risk_bucket_score_rationale
    (List.replicate 23 ⟨("engine".data), [], []⟩)
    [⟨("engine".data), []⟩] [⟨("engine".data), [], []⟩]
    (mkScoredBucket (List.replicate 23 ⟨("engine".data), [], []⟩)
      [⟨("engine".data), []⟩] [⟨("engine".data), [], []⟩]
      0 ("engine", "Engine / Oil consumption"))
    (by decide)
  rw [h.1, h.2]
  decide

/-- C5: for every record sets, the aggregator's output contains only buckets
of positive score, is ordered by score descending with ties kept in
topic-vocabulary order (`idx` is the bucket's position in the fixed
vocabulary), and has at most five entries. -/
theorem risk_ranking (complaints : List ComplaintRec) (recalls : List RecallRec)
    (tsbs : List TsbRec) :
    (∀ b ∈ scoredRisks complaints recalls tsbs, 0 < b.score) ∧
      List.Pairwise BucketOrder (scoredRisks complaints recalls tsbs) ∧
      (scoredRisks complaints recalls tsbs).length ≤ 5 := by
  refine ⟨?_, ?_, ?_⟩
  · intro b hb
    have hb1 := List.mem_of_mem_take hb
    rw [mem_sortDesc] at hb1
    exact of_decide_eq_true (List.mem_filter.mp hb1).2
  · refine List.Pairwise.sublist (List.take_sublist _ _) ?_
    refine sortDesc_pairwise _ ?_
    refine List.Pairwise.filter _ ?_
    rw [List.pairwise_map]
    exact List.Pairwise.imp (fun h => h)
      (by decide : List.Pairwise (fun p q => p.1 < q.1) BUCKETS.enum)
  · exact List.length_take_le 5 _

/-- C5 witness: with a single brake recall the ranked list is exactly the
Brakes bucket; it has positive score and the list length is within five. -/
theorem risk_ranking_witness :
    0 < (mkScoredBucket [] [⟨("brake".data), []⟩] [] 2 ("brake", "Brakes")).score ∧
      (scoredRisks [] [⟨("brake".data), []⟩] []).length ≤ 5 :=
  ⟨(risk_ranking [] [⟨("brake".data), []⟩] []).1
      (mkScoredBucket [] [⟨("brake".data), []⟩] [] 2 ("brake", "Brakes")) (by decide),
    (risk_ranking [] [⟨("brake".data), []⟩] []).2.2⟩

end Value
